import Mathlib

/-!
The OAuth2 state token and the CSRF check of `handlers/factory.go`.

A shallow embedding of the login and callback handlers of
`github.com/dmitrorlov/oauth2-token-app/handlers`.

* Go strings are byte sequences (`GoString`).
* The library calls the handlers make (`strings.Split`, `fmt.Sprintf` with
  `stateFmt`, `base64.URLEncoding.EncodeToString`) are embedded as functions on
  byte sequences, following the Go standard library.
* What a handler does to the outside (writes to the response, the
  `Set-Cookie` header, redirects, the code-for-token exchange, template
  execution) is recorded as a list of `Effect`s in program order; the
  collaborators' answers (random source, clock, OAuth2 client, template
  parser) are the fields of `World`.
* The call `http.SetCookie` is embedded with what `net/http` does to the
  cookie before it reaches the response: the name check, the sanitising and
  quoting of the value, and the `Expires` attribute in whole seconds.
-/

namespace OAuth2TokenApp

/-! ## Strings -/

/-- A Go `string`: a sequence of bytes. -/
abbrev GoString := List UInt8

/-- The bytes of an ASCII string literal of the source. -/
def lit (s : String) : GoString := s.toList.map (fun c => UInt8.ofNat c.toNat)

/-- The byte `_`, the separator of `stateFmt` and of the callback's
`strings.Split(oauth2State, "_")`. -/
def sep : UInt8 := 95

/-- Go's `strings.Split(s, "_")`: the substrings of `s` between consecutive
separators, in order; a string without a separator (the empty one too) gives
the one-element slice holding the string itself. -/
def Split : GoString → List GoString
  | [] => [[]]
  | x :: xs =>
    if x = sep then [] :: Split xs
    else (x :: (Split xs).headD []) :: (Split xs).tail

/-- Go's `fmt.Sprintf(stateFmt, a, b, c)` with `stateFmt = "%s_%s_%s"`. -/
def SprintfStateFmt (a b c : GoString) : GoString :=
  a ++ lit "_" ++ b ++ lit "_" ++ c

/-! ## `encoding/base64`, `URLEncoding` -/

/-- The alphabet of `base64.URLEncoding` (`encodeURL` in `encoding/base64`). -/
def encodeURL : GoString :=
  lit "ABCDEFGHIJKLMNOPQRSTUVWXYZabcdefghijklmnopqrstuvwxyz0123456789-_"

/-- The padding character of `base64.URLEncoding` (`StdPadding`, `=`). -/
def padChar : UInt8 := 61

/-- The table lookup `enc.encode[i]`. -/
def encodeTable (i : Nat) : UInt8 := encodeURL.getD i 0

/-- Go's `base64.URLEncoding.EncodeToString`: each full group of three bytes
becomes four characters of the alphabet (6 bits each, most significant
first); a remainder of one or two bytes becomes two or three characters,
padded with `=` to four. -/
def EncodeToString : List UInt8 → GoString
  | b0 :: b1 :: b2 :: rest =>
    let val := b0.toNat <<< 16 ||| b1.toNat <<< 8 ||| b2.toNat
    encodeTable (val >>> 18 &&& 0x3F) :: encodeTable (val >>> 12 &&& 0x3F) ::
      encodeTable (val >>> 6 &&& 0x3F) :: encodeTable (val &&& 0x3F) ::
      EncodeToString rest
  | [b0, b1] =>
    let val := b0.toNat <<< 16 ||| b1.toNat <<< 8
    [encodeTable (val >>> 18 &&& 0x3F), encodeTable (val >>> 12 &&& 0x3F),
      encodeTable (val >>> 6 &&& 0x3F), padChar]
  | [b0] =>
    let val := b0.toNat <<< 16
    [encodeTable (val >>> 18 &&& 0x3F), encodeTable (val >>> 12 &&& 0x3F),
      padChar, padChar]
  | [] => []

/-! ## Data model -/

/-- The struct `PlatformBase`: the key of the registry. -/
structure PlatformBase where
  Name : GoString
  Platform : GoString
  deriving DecidableEq, Repr

/-- The struct `TokenData`: a `PlatformBase` and the exchanged token
(`*oauth2.Token`, opaque here). -/
structure TokenData (Token : Type) where
  PlatformBase : PlatformBase
  Token : Token
  deriving DecidableEq, Repr

/-- The fields of `http.Cookie` that `generateStateAndAddCookie` sets.
`Expires` is an instant in nanoseconds since the Unix epoch (a `time.Time` in
`time.Local`). -/
structure Cookie where
  Name : GoString
  Value : GoString
  Expires : Int
  deriving DecidableEq, Repr

/-- What `cookie.String()` writes into the `Set-Cookie` header for a cookie
with only `Name`, `Value` and `Expires` set: the name, the text after `=`, and
the instant of the `Expires` attribute in whole seconds since the Unix epoch
(the header prints it as an HTTP date); `none` when the attribute is left
out. -/
structure SetCookieHeader where
  Name : GoString
  Value : GoString
  Expires : Option Int
  deriving DecidableEq, Repr

/-- The struct `Factory`: `settings` is the map from `PlatformBase` to the
provider's `*oauth2.Config` (opaque here, taken non-nil); `none` is a missing
key. -/
structure Factory (Cfg : Type) where
  settings : PlatformBase → Option Cfg

/-- The options of `oauth2.AuthCodeURL` the login handler passes. -/
inductive AuthCodeOption
  | ApprovalForce
  | AccessTypeOffline
  deriving DecidableEq, Repr

/-- What the handlers read of an `*http.Request`: its cookies (name, value)
in header order and its form values (key, value) in the order `FormValue`
looks them up. -/
structure Request where
  Cookies : List (GoString × GoString)
  Form : List (GoString × GoString)

/-- Go's `r.Cookie(name)`: the value of the first cookie of that name, `none`
for `http.ErrNoCookie` (the returned `*http.Cookie` is then nil). -/
def Request.Cookie (r : Request) (name : GoString) : Option GoString :=
  (r.Cookies.find? (fun c => c.1 = name)).map Prod.snd

/-- Go's `r.FormValue(key)`: the first value for the key, the empty string
when the key is absent. -/
def Request.FormValue (r : Request) (key : GoString) : GoString :=
  ((r.Form.find? (fun c => c.1 = key)).map Prod.snd).getD []

/-- A byte slice of length `n`, as `make([]byte, n)` allocates. -/
abbrev Bytes (n : Nat) := { b : List UInt8 // b.length = n }

/-- The answers of the collaborators during one request. -/
structure World (Cfg Token : Type) where
  /-- The instant `time.Now()` returns, in nanoseconds since the Unix epoch. -/
  now : Int
  /-- The offset of `time.Local` from UTC, in seconds, at an instant given in
  seconds since the Unix epoch. -/
  zoneOffset : Int → Int
  /-- The outcome of `rand.Read(b)` on a buffer of `n` bytes: the error, or
  the `n` bytes the buffer holds afterwards. -/
  randRead : (n : Nat) → Except GoString (Bytes n)
  /-- The method `cfg.AuthCodeURL(state, opts...)`. -/
  AuthCodeURL : Cfg → GoString → List AuthCodeOption → GoString
  /-- The method `cfg.Exchange(ctx, code)`: the token or the error. -/
  Exchange : Cfg → GoString → Except GoString Token
  /-- The error message of `template.ParseFiles(tokenTemplate)`, `none` when
  the template parses. -/
  ParseFiles : Option GoString

/-- What a handler does to the outside, one constructor per call. -/
inductive Effect (Cfg Token : Type)
  /-- The call `fmt.Fprintf(w, ...)` with the formatted text. -/
  | Fprintf (text : GoString)
  /-- The call `w.Header().Add("Set-Cookie", v)` that `http.SetCookie` makes,
  with what the line `v` holds. -/
  | AddSetCookie (header : SetCookieHeader)
  /-- The call `log.Printf(...)` with the formatted text. -/
  | Printf (text : GoString)
  /-- The call `http.Redirect(w, r, url, code)`. -/
  | Redirect (url : GoString) (code : Nat)
  /-- The call `cfg.Exchange(context.Background(), code)`. -/
  | Exchange (cfg : Cfg) (code : GoString)
  /-- The call `tmpl.Execute(w, data)`. -/
  | Execute (data : TokenData Token)
  /-- A nil pointer dereference: the handler panics and runs no further. -/
  | nilDereference
  deriving DecidableEq, Repr

/-- Go's `time.Minute`, in nanoseconds. -/
def Minute : Int := 60 * 1000000000

/-- Go's `http.StatusTemporaryRedirect`. -/
def StatusTemporaryRedirect : Nat := 307

/-! ## `net/http`, `SetCookie` -/

/-- The double quote `"`. -/
def dquote : UInt8 := 34

/-- The table `isTokenTable` of `golang.org/x/net/http/httpguts`: the bytes
allowed in a cookie name (digits, letters and the fifteen listed signs). -/
def isTokenByte (b : UInt8) : Bool :=
  (48 ≤ b.toNat && b.toNat ≤ 57) || (65 ≤ b.toNat && b.toNat ≤ 90) ||
    (97 ≤ b.toNat && b.toNat ≤ 122) ||
    [33, 35, 36, 37, 38, 39, 42, 43, 45, 46, 94, 95, 96, 124, 126].contains b

/-- The function `isCookieNameValid` of `net/http`: a non-empty name of token
bytes. -/
def isCookieNameValid (raw : GoString) : Bool :=
  !raw.isEmpty && raw.all isTokenByte

/-- The function `validCookieValueByte` of `net/http`: printable ASCII other
than `"`, `;` and the backslash. -/
def validCookieValueByte (b : UInt8) : Bool :=
  0x20 ≤ b.toNat && b.toNat < 0x7f && b != 34 && b != 59 && b != 92

/-- The function `sanitizeOrWarn` of `net/http` at `validCookieValueByte`:
the invalid bytes are dropped. -/
def sanitizeOrWarn (v : GoString) : GoString :=
  v.filter validCookieValueByte

/-- The function `sanitizeCookieValue` of `net/http` (for a cookie that is not
marked `Quoted`): the invalid bytes are dropped, and what is left is wrapped
in double quotes when it holds a space or a comma. -/
def sanitizeCookieValue (v : GoString) : GoString :=
  let v := sanitizeOrWarn v
  if v.length = 0 then v
  else if v.any (fun b => b == 32 || b == 44) then dquote :: (v ++ [dquote])
  else v

/-- The function `validCookieExpires` of `net/http`: the year of the instant
`t` (nanoseconds since the Unix epoch), read in `time.Local`, is 1601 or
later. The first second of 1601 is 11644473600 seconds before the epoch. -/
def validCookieExpires {Cfg Token : Type} (w : World Cfg Token) (t : Int) : Bool :=
  decide (-11644473600 ≤ t / 1000000000 + w.zoneOffset (t / 1000000000))

/-- Go's `http.SetCookie(w, &cookie)` for a cookie with only `Name`, `Value`
and `Expires` set: nothing when the name is invalid, otherwise the
`Set-Cookie` header with the sanitised value and, when the year allows it,
the `Expires` attribute in whole seconds. -/
def SetCookie {Cfg Token : Type} (w : World Cfg Token) (cookie : Cookie) :
    List (Effect Cfg Token) :=
  if isCookieNameValid cookie.Name then
    [.AddSetCookie
      { Name := cookie.Name,
        Value := sanitizeCookieValue cookie.Value,
        Expires :=
          if validCookieExpires w cookie.Expires then some (cookie.Expires / 1000000000)
          else none }]
  else []

/-! ## The handlers -/

/-- The method `Factory.generateStateAndAddCookie`: the effects on the
response and the returned `(string, error)`. -/
def generateStateAndAddCookie {Cfg Token : Type} (w : World Cfg Token)
    (name platform : GoString) : List (Effect Cfg Token) × Except GoString GoString :=
  let expiration := w.now + 20 * Minute
  match w.randRead 16 with
  | .error err => ([], .error err)
  | .ok b =>
    let state := SprintfStateFmt name platform (EncodeToString b.val)
    let cookie : Cookie := { Name := lit "state", Value := state, Expires := expiration }
    (SetCookie w cookie, .ok state)

/-- The handler returned by `Factory.GetLoginHandler`. -/
def GetLoginHandler {Cfg Token : Type} (f : Factory Cfg) (w : World Cfg Token)
    (r : Request) : List (Effect Cfg Token) :=
  let name := r.FormValue (lit "name")
  let platform := r.FormValue (lit "platform")
  match f.settings { Name := name, Platform := platform } with
  | none =>
    [.Fprintf (lit "Missing config for " ++ name ++ lit ", platform " ++ platform ++ lit "\n")]
  | some cfg =>
    let opts := [AuthCodeOption.ApprovalForce, AuthCodeOption.AccessTypeOffline]
    match generateStateAndAddCookie w name platform with
    | (effs, .error err) =>
      effs ++ [.Fprintf (lit "failed to generate state and add cookie: " ++ err ++ lit "\n")]
    | (effs, .ok oauthState) =>
      let u := w.AuthCodeURL cfg oauthState opts
      effs ++ [.Printf (lit "Auth code url: " ++ u ++ lit "\n"),
               .Redirect u StatusTemporaryRedirect]

/-- The decoding of the state in the callback handler (`strings.Split`, the
length check, `stateSplitted[0]` and `stateSplitted[1]`); `none` is the
`invalid oauth2State` branch. -/
def decodeState (oauth2State : GoString) : Option PlatformBase :=
  let stateSplitted := Split oauth2State
  if stateSplitted.length < 3 then none
  else some { Name := stateSplitted.getD 0 [], Platform := stateSplitted.getD 1 [] }

/-- The handler returned by `Factory.GetCallbackHandler`. -/
def GetCallbackHandler {Cfg Token : Type} (f : Factory Cfg) (w : World Cfg Token)
    (r : Request) : List (Effect Cfg Token) :=
  let cookieState := r.Cookie (lit "state")
  let oauth2State := r.FormValue (lit "state")
  match cookieState with
  | none => [.nilDereference]
  | some cookieValue =>
    if oauth2State ≠ cookieValue then [.Fprintf (lit "states are different")]
    else
      let code := r.FormValue (lit "code")
      match decodeState oauth2State with
      | none => [.Fprintf (lit "invalid oauth2State")]
      | some pb =>
        match f.settings pb with
        | none =>
          [.Fprintf (lit "Missing config for " ++ pb.Name ++ lit ", platform " ++
            pb.Platform ++ lit "\n")]
        | some cfg =>
          match w.Exchange cfg code with
          | .error _ =>
            [.Exchange cfg code,
             .Fprintf (lit "failed to exchange token for " ++ pb.Platform ++ lit "\n")]
          | .ok token =>
            let data : TokenData Token := { PlatformBase := pb, Token := token }
            match w.ParseFiles with
            | some err =>
              [.Exchange cfg code,
               .Fprintf (lit "failed to parse template file: " ++ err ++ lit "\n")]
            | none => [.Exchange cfg code, .Execute data]

/-! ## Reading the effects -/

/-- Whether an effect is a call of `cfg.Exchange`. -/
def Effect.isExchange {Cfg Token : Type} : Effect Cfg Token → Bool
  | .Exchange _ _ => true
  | _ => false

/-- Whether an effect is a `Set-Cookie` header put on the response. -/
def Effect.isSetCookie {Cfg Token : Type} : Effect Cfg Token → Bool
  | .AddSetCookie _ => true
  | _ => false

/-- Whether an effect is a call of `http.Redirect`. -/
def Effect.isRedirect {Cfg Token : Type} : Effect Cfg Token → Bool
  | .Redirect _ _ => true
  | _ => false

/-! ## Sample inputs -/

/-- A registry with the one provider `github`/`oauth`, whose config is `7`. -/
def sampleFactory : Factory Nat where
  settings := fun pb =>
    if pb = { Name := lit "github", Platform := lit "oauth" } then some 7 else none

/-- Sixteen bytes `0, 1, ..., 15`. -/
def sampleBytes : Bytes 16 := ⟨[0, 1, 2, 3, 4, 5, 6, 7, 8, 9, 10, 11, 12, 13, 14, 15], rfl⟩

/-- Sixteen bytes `255`. -/
def sampleBytesFF : Bytes 16 :=
  ⟨[255, 255, 255, 255, 255, 255, 255, 255, 255, 255, 255, 255, 255, 255, 255, 255], rfl⟩

/-- A world whose random source fills a 16-byte buffer with `b`, whose
exchange answers the token `xyz` and whose template parses. -/
def sampleWorld (b : Bytes 16) : World Nat GoString where
  now := 1000
  zoneOffset := fun _ => 0
  randRead := fun n => if h : n = 16 then .ok (h ▸ b) else .error (lit "short buffer")
  AuthCodeURL := fun _ state _ => lit "https://provider/authorize?state=" ++ state
  Exchange := fun _ _ => .ok (lit "xyz")
  ParseFiles := none

/-- A world whose random source fails. -/
def failingWorld : World Nat GoString where
  now := 1000
  zoneOffset := fun _ => 0
  randRead := fun _ => .error (lit "entropy unavailable")
  AuthCodeURL := fun _ state _ => lit "https://provider/authorize?state=" ++ state
  Exchange := fun _ _ => .ok (lit "xyz")
  ParseFiles := none

/-- A world whose clock stands in the year 1600 (UTC). -/
def ancientWorld (b : Bytes 16) : World Nat GoString where
  now := -11650000000 * 1000000000
  zoneOffset := fun _ => 0
  randRead := fun n => if h : n = 16 then .ok (h ▸ b) else .error (lit "short buffer")
  AuthCodeURL := fun _ state _ => lit "https://provider/authorize?state=" ++ state
  Exchange := fun _ _ => .ok (lit "xyz")
  ParseFiles := none

/-- A registry with the one provider `git;hub`/`oauth`, whose config is `7`. -/
def semicolonFactory : Factory Nat where
  settings := fun pb =>
    if pb = { Name := lit "git;hub", Platform := lit "oauth" } then some 7 else none

/-- A callback request without any cookie. -/
def requestNoCookie : Request where
  Cookies := []
  Form := [(lit "state", lit "github_oauth_abc"), (lit "code", lit "abc123")]

/-- A callback request whose `state` cookie and `state` parameter are both `s`. -/
def requestWithState (s : GoString) : Request where
  Cookies := [(lit "state", s)]
  Form := [(lit "state", s), (lit "code", lit "abc123")]

/-- A login request for `name` and `platform`. -/
def loginRequest (name platform : GoString) : Request where
  Cookies := []
  Form := [(lit "name", name), (lit "platform", platform)]

/-! ## Lemmas on `Split` -/

theorem Split_ne_nil (s : GoString) : Split s ≠ [] := by
  cases s with
  | nil => simp [Split]
  | cons x xs => by_cases h : x = sep <;> simp [Split, h]

theorem Split_length (s : GoString) : (Split s).length = s.count sep + 1 := by
  induction s with
  | nil => simp [Split]
  | cons x xs ih =>
    by_cases h : x = sep
    · subst h; simp [Split, ih]
    · have hne := Split_ne_nil xs
      have hpos : 0 < (Split xs).length := List.length_pos.mpr hne
      simp [Split, h, List.count_cons, ih] at *

theorem Split_of_not_mem (a : GoString) (h : sep ∉ a) : Split a = [a] := by
  induction a with
  | nil => simp [Split]
  | cons x xs ih =>
    simp only [List.mem_cons, not_or] at h
    have hx : x ≠ sep := fun e => h.1 e.symm
    simp [Split, hx, ih h.2]

theorem Split_append_sep (a rest : GoString) (h : sep ∉ a) :
    Split (a ++ sep :: rest) = a :: Split rest := by
  induction a with
  | nil => simp [Split]
  | cons x xs ih =>
    simp only [List.mem_cons, not_or] at h
    have hx : x ≠ sep := fun e => h.1 e.symm
    simp [Split, hx, ih h.2]

theorem not_mem_of_mem_Split (s seg : GoString) (h : seg ∈ Split s) : sep ∉ seg := by
  induction s generalizing seg with
  | nil => simp [Split] at h; subst h; simp
  | cons x xs ih =>
    by_cases hx : x = sep
    · simp [Split, hx] at h
      rcases h with h | h
      · subst h; simp
      · exact ih seg h
    · simp only [Split, hx, if_false, List.mem_cons] at h
      rcases h with h | h
      · subst h
        have hne := Split_ne_nil xs
        cases hs : Split xs with
        | nil => exact absurd hs hne
        | cons y ys =>
          have := ih y (by simp [hs])
          simp only [List.headD_cons, List.mem_cons, not_or]
          exact ⟨fun e => hx e.symm, this⟩
      · exact ih seg (List.mem_of_mem_tail h)


/-! ## Lemmas on the state token -/

theorem lit_sep : lit "_" = [sep] := by decide

theorem SprintfStateFmt_eq (a b c : GoString) :
    SprintfStateFmt a b c = a ++ sep :: (b ++ sep :: c) := by
  simp [SprintfStateFmt, lit_sep]

theorem Split_SprintfStateFmt (a b c : GoString) (ha : sep ∉ a) (hb : sep ∉ b) :
    Split (SprintfStateFmt a b c) = a :: b :: Split c := by
  rw [SprintfStateFmt_eq, Split_append_sep a _ ha, Split_append_sep b _ hb]

theorem decodeState_SprintfStateFmt (a b c : GoString) (ha : sep ∉ a) (hb : sep ∉ b) :
    decodeState (SprintfStateFmt a b c) = some { Name := a, Platform := b } := by
  have hpos : 0 < (Split c).length := List.length_pos.mpr (Split_ne_nil c)
  simp only [decodeState, Split_SprintfStateFmt a b c ha hb]
  rw [if_neg (by simp only [List.length_cons]; omega)]
  simp

theorem Split_SprintfStateFmt_length (a b c : GoString) :
    3 ≤ (Split (SprintfStateFmt a b c)).length := by
  rw [Split_length, SprintfStateFmt_eq]
  simp [List.count_append, List.count_cons]
  omega

theorem decodeState_isSome_iff (s : GoString) :
    (decodeState s).isSome ↔ 3 ≤ (Split s).length := by
  unfold decodeState
  by_cases h : (Split s).length < 3
  · simp [h]
  · simp [h]; omega

theorem decodeState_not_mem (s : GoString) (pb : PlatformBase)
    (h : decodeState s = some pb) : sep ∉ pb.Name ∧ sep ∉ pb.Platform := by
  unfold decodeState at h
  by_cases hl : (Split s).length < 3
  · simp [hl] at h
  · simp only [hl, if_false, Option.some.injEq] at h
    subst h
    have h0 : 0 < (Split s).length := by omega
    have h1 : 1 < (Split s).length := by omega
    constructor
    · apply not_mem_of_mem_Split s
      rw [List.getD_eq_getElem _ _ h0]
      exact List.getElem_mem _
    · apply not_mem_of_mem_Split s
      rw [List.getD_eq_getElem _ _ h1]
      exact List.getElem_mem _


/-! ## Lemmas on `EncodeToString` -/

theorem encodeTable_indexOf : ∀ i, i < 64 → encodeURL.indexOf (encodeTable i) = i := by
  decide

theorem encodeTable_inj (i j : Nat) (hi : i < 64) (hj : j < 64)
    (h : encodeTable i = encodeTable j) : i = j := by
  have h1 := encodeTable_indexOf i hi
  have h2 := encodeTable_indexOf j hj
  rw [h] at h1
  omega

theorem and_0x3F (x : Nat) : x &&& 0x3F = x % 64 :=
  Nat.and_pow_two_sub_one_eq_mod x 6

theorem or2 (a b : Nat) (hb : b < 256) : a <<< 16 ||| b <<< 8 = a * 65536 + b * 256 := by
  have h : b * 256 < 2 ^ 16 := by omega
  have := Nat.mul_add_lt_is_or h a
  simp only [Nat.shiftLeft_eq]
  rw [show a * 2 ^ 16 = 2 ^ 16 * a by ring, show b * 2 ^ 8 = b * 256 by norm_num, ← this]
  ring

theorem or3 (a b c : Nat) (hb : b < 256) (hc : c < 256) :
    a <<< 16 ||| b <<< 8 ||| c = a * 65536 + b * 256 + c := by
  have h : c < 2 ^ 8 := by omega
  have := Nat.mul_add_lt_is_or h (a * 256 + b)
  rw [or2 a b hb, show a * 65536 + b * 256 = 2 ^ 8 * (a * 256 + b) by ring, ← this]

theorem group3_inj (a b c a' b' c' : UInt8)
    (h0 : encodeTable ((a.toNat <<< 16 ||| b.toNat <<< 8 ||| c.toNat) >>> 18 &&& 0x3F) =
      encodeTable ((a'.toNat <<< 16 ||| b'.toNat <<< 8 ||| c'.toNat) >>> 18 &&& 0x3F))
    (h1 : encodeTable ((a.toNat <<< 16 ||| b.toNat <<< 8 ||| c.toNat) >>> 12 &&& 0x3F) =
      encodeTable ((a'.toNat <<< 16 ||| b'.toNat <<< 8 ||| c'.toNat) >>> 12 &&& 0x3F))
    (h2 : encodeTable ((a.toNat <<< 16 ||| b.toNat <<< 8 ||| c.toNat) >>> 6 &&& 0x3F) =
      encodeTable ((a'.toNat <<< 16 ||| b'.toNat <<< 8 ||| c'.toNat) >>> 6 &&& 0x3F))
    (h3 : encodeTable ((a.toNat <<< 16 ||| b.toNat <<< 8 ||| c.toNat) &&& 0x3F) =
      encodeTable ((a'.toNat <<< 16 ||| b'.toNat <<< 8 ||| c'.toNat) &&& 0x3F)) :
    a = a' ∧ b = b' ∧ c = c' := by
  have ha := a.toNat_lt
  have hb := b.toNat_lt
  have hc := c.toNat_lt
  have ha' := a'.toNat_lt
  have hb' := b'.toNat_lt
  have hc' := c'.toNat_lt
  rw [or3 _ _ _ (by omega) (by omega), or3 _ _ _ (by omega) (by omega)] at h0 h1 h2 h3
  simp only [and_0x3F, Nat.shiftRight_eq_div_pow] at h0 h1 h2 h3
  have e0 := encodeTable_inj _ _ (Nat.mod_lt _ (by norm_num)) (Nat.mod_lt _ (by norm_num)) h0
  have e1 := encodeTable_inj _ _ (Nat.mod_lt _ (by norm_num)) (Nat.mod_lt _ (by norm_num)) h1
  have e2 := encodeTable_inj _ _ (Nat.mod_lt _ (by norm_num)) (Nat.mod_lt _ (by norm_num)) h2
  have e3 := encodeTable_inj _ _ (Nat.mod_lt _ (by norm_num)) (Nat.mod_lt _ (by norm_num)) h3
  norm_num at e0 e1 e2 e3
  refine ⟨UInt8.ext ?_, UInt8.ext ?_, UInt8.ext ?_⟩ <;> omega


theorem group2_inj (a b a' b' : UInt8)
    (h0 : encodeTable ((a.toNat <<< 16 ||| b.toNat <<< 8) >>> 18 &&& 0x3F) =
      encodeTable ((a'.toNat <<< 16 ||| b'.toNat <<< 8) >>> 18 &&& 0x3F))
    (h1 : encodeTable ((a.toNat <<< 16 ||| b.toNat <<< 8) >>> 12 &&& 0x3F) =
      encodeTable ((a'.toNat <<< 16 ||| b'.toNat <<< 8) >>> 12 &&& 0x3F))
    (h2 : encodeTable ((a.toNat <<< 16 ||| b.toNat <<< 8) >>> 6 &&& 0x3F) =
      encodeTable ((a'.toNat <<< 16 ||| b'.toNat <<< 8) >>> 6 &&& 0x3F)) :
    a = a' ∧ b = b' := by
  have ha := a.toNat_lt
  have hb := b.toNat_lt
  have ha' := a'.toNat_lt
  have hb' := b'.toNat_lt
  rw [or2 _ _ (by omega), or2 _ _ (by omega)] at h0 h1 h2
  simp only [and_0x3F, Nat.shiftRight_eq_div_pow] at h0 h1 h2
  have e0 := encodeTable_inj _ _ (Nat.mod_lt _ (by norm_num)) (Nat.mod_lt _ (by norm_num)) h0
  have e1 := encodeTable_inj _ _ (Nat.mod_lt _ (by norm_num)) (Nat.mod_lt _ (by norm_num)) h1
  have e2 := encodeTable_inj _ _ (Nat.mod_lt _ (by norm_num)) (Nat.mod_lt _ (by norm_num)) h2
  norm_num at e0 e1 e2
  refine ⟨UInt8.ext ?_, UInt8.ext ?_⟩ <;> omega

theorem group1_inj (a a' : UInt8)
    (h0 : encodeTable (a.toNat <<< 16 >>> 18 &&& 0x3F) =
      encodeTable (a'.toNat <<< 16 >>> 18 &&& 0x3F))
    (h1 : encodeTable (a.toNat <<< 16 >>> 12 &&& 0x3F) =
      encodeTable (a'.toNat <<< 16 >>> 12 &&& 0x3F)) :
    a = a' := by
  have ha := a.toNat_lt
  have ha' := a'.toNat_lt
  simp only [and_0x3F, Nat.shiftRight_eq_div_pow, Nat.shiftLeft_eq] at h0 h1
  have e0 := encodeTable_inj _ _ (Nat.mod_lt _ (by norm_num)) (Nat.mod_lt _ (by norm_num)) h0
  have e1 := encodeTable_inj _ _ (Nat.mod_lt _ (by norm_num)) (Nat.mod_lt _ (by norm_num)) h1
  norm_num at e0 e1
  exact UInt8.ext (by omega)

/-- On inputs of one length, `EncodeToString` is injective. -/
theorem EncodeToString_inj : ∀ (n : Nat) (a b : List UInt8), a.length = n → b.length = n →
    EncodeToString a = EncodeToString b → a = b
  | 0, a, b, ha, hb, _ => by
    rw [List.length_eq_zero.mp ha, List.length_eq_zero.mp hb]
  | 1, a, b, ha, hb, h => by
    obtain ⟨a0, rfl⟩ := List.length_eq_one.mp ha
    obtain ⟨b0, rfl⟩ := List.length_eq_one.mp hb
    simp only [EncodeToString, List.cons.injEq, and_true, true_and] at h
    rw [group1_inj a0 b0 h.1 h.2]
  | 2, a, b, ha, hb, h => by
    obtain ⟨a0, a1, rfl⟩ := List.length_eq_two.mp ha
    obtain ⟨b0, b1, rfl⟩ := List.length_eq_two.mp hb
    simp only [EncodeToString, List.cons.injEq, and_true, true_and] at h
    obtain ⟨e0, e1⟩ := group2_inj a0 a1 b0 b1 h.1 h.2.1 h.2.2
    rw [e0, e1]
  | n + 3, a, b, ha, hb, h => by
    match a, b, ha, hb, h with
    | a0 :: a1 :: a2 :: as, b0 :: b1 :: b2 :: bs, ha, hb, h =>
      simp only [EncodeToString, List.cons.injEq] at h
      obtain ⟨h0, h1, h2, h3, hrest⟩ := h
      obtain ⟨e0, e1, e2⟩ := group3_inj a0 a1 a2 b0 b1 b2 h0 h1 h2 h3
      have hr := EncodeToString_inj n as bs (by simpa using ha) (by simpa using hb) hrest
      rw [e0, e1, e2, hr]

theorem EncodeToString_length : ∀ (n : Nat) (b : List UInt8), b.length = n →
    (EncodeToString b).length = (n + 2) / 3 * 4
  | 0, b, hb => by rw [List.length_eq_zero.mp hb]; rfl
  | 1, b, hb => by obtain ⟨b0, rfl⟩ := List.length_eq_one.mp hb; rfl
  | 2, b, hb => by obtain ⟨b0, b1, rfl⟩ := List.length_eq_two.mp hb; rfl
  | n + 3, b, hb => by
    match b, hb with
    | b0 :: b1 :: b2 :: bs, hb =>
      simp only [EncodeToString, List.length_cons]
      rw [EncodeToString_length n bs (by simpa using hb)]
      omega


/-! ## More lemmas -/

theorem encodeTable_mem : ∀ i, i < 64 → encodeTable i ∈ encodeURL := by
  decide

theorem EncodeToString_alphabet : ∀ (n : Nat) (b : List UInt8), b.length = n →
    ∀ c ∈ EncodeToString b, c ∈ encodeURL ∨ c = padChar
  | 0, b, hb => by rw [List.length_eq_zero.mp hb]; simp [EncodeToString]
  | 1, b, hb => by
    obtain ⟨b0, rfl⟩ := List.length_eq_one.mp hb
    intro c hc
    simp only [EncodeToString, and_0x3F, List.mem_cons, List.not_mem_nil, or_false] at hc
    rcases hc with h | h | h | h
    · exact h ▸ Or.inl (encodeTable_mem _ (Nat.mod_lt _ (by norm_num)))
    · exact h ▸ Or.inl (encodeTable_mem _ (Nat.mod_lt _ (by norm_num)))
    · exact Or.inr h
    · exact Or.inr h
  | 2, b, hb => by
    obtain ⟨b0, b1, rfl⟩ := List.length_eq_two.mp hb
    intro c hc
    simp only [EncodeToString, and_0x3F, List.mem_cons, List.not_mem_nil, or_false] at hc
    rcases hc with h | h | h | h
    · exact h ▸ Or.inl (encodeTable_mem _ (Nat.mod_lt _ (by norm_num)))
    · exact h ▸ Or.inl (encodeTable_mem _ (Nat.mod_lt _ (by norm_num)))
    · exact h ▸ Or.inl (encodeTable_mem _ (Nat.mod_lt _ (by norm_num)))
    · exact Or.inr h
  | n + 3, b, hb => by
    match b, hb with
    | b0 :: b1 :: b2 :: bs, hb =>
      intro c hc
      simp only [EncodeToString, and_0x3F, List.mem_cons] at hc
      rcases hc with h | h | h | h | h
      · exact h ▸ Or.inl (encodeTable_mem _ (Nat.mod_lt _ (by norm_num)))
      · exact h ▸ Or.inl (encodeTable_mem _ (Nat.mod_lt _ (by norm_num)))
      · exact h ▸ Or.inl (encodeTable_mem _ (Nat.mod_lt _ (by norm_num)))
      · exact h ▸ Or.inl (encodeTable_mem _ (Nat.mod_lt _ (by norm_num)))
      · exact EncodeToString_alphabet n bs (by simpa using hb) c h

/-! ## Lemmas on `SetCookie` -/

theorem sanitizeOrWarn_of_valid (v : GoString)
    (hv : ∀ c ∈ v, validCookieValueByte c = true) : sanitizeOrWarn v = v := by
  unfold sanitizeOrWarn
  exact List.filter_eq_self.mpr hv

theorem sanitizeCookieValue_of_valid (v : GoString)
    (hv : ∀ c ∈ v, validCookieValueByte c = true) :
    sanitizeCookieValue v =
      if v.any (fun b => b == 32 || b == 44) then dquote :: (v ++ [dquote]) else v := by
  unfold sanitizeCookieValue
  rw [sanitizeOrWarn_of_valid v hv]
  cases v with
  | nil => rfl
  | cons x xs => simp

theorem encodeURL_valid : ∀ c ∈ encodeURL, validCookieValueByte c = true := by
  decide

theorem encodeURL_plain : ∀ c ∈ encodeURL, (c == 32 || c == 44) = false := by
  decide

theorem EncodeToString_valid (b : List UInt8) :
    ∀ c ∈ EncodeToString b, validCookieValueByte c = true := by
  intro c hc
  rcases EncodeToString_alphabet b.length b rfl c hc with h | h
  · exact encodeURL_valid c h
  · subst h; decide

theorem EncodeToString_plain (b : List UInt8) :
    ∀ c ∈ EncodeToString b, (c == 32 || c == 44) = false := by
  intro c hc
  rcases EncodeToString_alphabet b.length b rfl c hc with h | h
  · exact encodeURL_plain c h
  · subst h; decide

theorem SprintfStateFmt_valid (a b c : GoString)
    (ha : ∀ x ∈ a, validCookieValueByte x = true)
    (hb : ∀ x ∈ b, validCookieValueByte x = true)
    (hc : ∀ x ∈ c, validCookieValueByte x = true) :
    ∀ x ∈ SprintfStateFmt a b c, validCookieValueByte x = true := by
  intro x hx
  rw [SprintfStateFmt_eq] at hx
  simp only [List.mem_append, List.mem_cons] at hx
  rcases hx with h | h | h | h | h
  · exact ha x h
  · subst h; decide
  · exact hb x h
  · subst h; decide
  · exact hc x h

theorem SprintfStateFmt_plain (a b c : GoString)
    (ha : ∀ x ∈ a, (x == 32 || x == 44) = false)
    (hb : ∀ x ∈ b, (x == 32 || x == 44) = false)
    (hc : ∀ x ∈ c, (x == 32 || x == 44) = false) :
    (SprintfStateFmt a b c).any (fun x => x == 32 || x == 44) = false := by
  rw [List.any_eq_false]
  intro x hx
  rw [SprintfStateFmt_eq] at hx
  simp only [List.mem_append, List.mem_cons] at hx
  have key : (x == 32 || x == 44) = false := by
    rcases hx with h | h | h | h | h
    · exact ha x h
    · subst h; decide
    · exact hb x h
    · subst h; decide
    · exact hc x h
  simp [key]

theorem plain_of_not_mem (a : GoString) (h32 : 32 ∉ a) (h44 : 44 ∉ a) :
    ∀ x ∈ a, (x == 32 || x == 44) = false := by
  intro x hx
  simp only [Bool.or_eq_false_iff, beq_eq_false_iff_ne, ne_eq]
  exact ⟨fun e => h32 (e ▸ hx), fun e => h44 (e ▸ hx)⟩

theorem SetCookie_state {Cfg Token : Type} (w : World Cfg Token) (v : GoString) (t : Int) :
    SetCookie w { Name := lit "state", Value := v, Expires := t } =
      ([.AddSetCookie
        { Name := lit "state",
          Value := sanitizeCookieValue v,
          Expires := if validCookieExpires w t then some (t / 1000000000) else none }] :
        List (Effect Cfg Token)) := by
  have h : isCookieNameValid (lit "state") = true := by decide
  simp only [SetCookie, h, if_true]

/-! ## Lemmas on the handlers -/

theorem generate_ok {Cfg Token : Type} (w : World Cfg Token) (name platform : GoString)
    (b : Bytes 16) (hr : w.randRead 16 = .ok b) :
    generateStateAndAddCookie w name platform =
      ([.AddSetCookie
        { Name := lit "state",
          Value := sanitizeCookieValue (SprintfStateFmt name platform (EncodeToString b.val)),
          Expires :=
            if validCookieExpires w (w.now + 20 * Minute) then
              some ((w.now + 20 * Minute) / 1000000000)
            else none }],
       .ok (SprintfStateFmt name platform (EncodeToString b.val))) := by
  simp only [generateStateAndAddCookie, hr, SetCookie_state]

/-- The `Set-Cookie` value written for a token whose name and platform hold
only valid cookie value bytes: the token, in double quotes when it holds a
space or a comma. -/
theorem sanitize_token (name platform : GoString) (b : List UInt8)
    (hn : ∀ c ∈ name, validCookieValueByte c = true)
    (hp : ∀ c ∈ platform, validCookieValueByte c = true) :
    sanitizeCookieValue (SprintfStateFmt name platform (EncodeToString b)) =
      if (SprintfStateFmt name platform (EncodeToString b)).any
          (fun x => x == 32 || x == 44) then
        dquote :: (SprintfStateFmt name platform (EncodeToString b) ++ [dquote])
      else SprintfStateFmt name platform (EncodeToString b) :=
  sanitizeCookieValue_of_valid _
    (SprintfStateFmt_valid name platform _ hn hp (EncodeToString_valid b))

theorem generate_error {Cfg Token : Type} (w : World Cfg Token) (name platform : GoString)
    (err : GoString) (hr : w.randRead 16 = .error err) :
    generateStateAndAddCookie w name platform = ([], .error err) := by
  simp [generateStateAndAddCookie, hr]

theorem missing_ne_invalid (x : GoString) :
    lit "Missing config for " ++ x ≠ lit "invalid oauth2State" := by
  have h1 : lit "Missing config for " = 77 :: lit "issing config for " := by decide
  have h2 : lit "invalid oauth2State" = 105 :: lit "nvalid oauth2State" := by decide
  rw [h1, h2]
  intro h
  simp only [List.cons_append, List.cons.injEq] at h
  exact absurd h.1 (by decide)

/-- What the callback handler does once the cookie check has passed and the
state has decoded to `pb`. -/
theorem callback_of_decode {Cfg Token : Type} (f : Factory Cfg) (w : World Cfg Token)
    (r : Request) (pb : PlatformBase)
    (hc : r.Cookie (lit "state") = some (r.FormValue (lit "state")))
    (hd : decodeState (r.FormValue (lit "state")) = some pb) :
    GetCallbackHandler f w r =
      match f.settings pb with
      | none =>
        [.Fprintf (lit "Missing config for " ++ pb.Name ++ lit ", platform " ++
          pb.Platform ++ lit "\n")]
      | some cfg =>
        match w.Exchange cfg (r.FormValue (lit "code")) with
        | .error _ =>
          [.Exchange cfg (r.FormValue (lit "code")),
           .Fprintf (lit "failed to exchange token for " ++ pb.Platform ++ lit "\n")]
        | .ok token =>
          match w.ParseFiles with
          | some err =>
            [.Exchange cfg (r.FormValue (lit "code")),
             .Fprintf (lit "failed to parse template file: " ++ err ++ lit "\n")]
          | none =>
            [.Exchange cfg (r.FormValue (lit "code")),
             .Execute { PlatformBase := pb, Token := token }] := by
  simp only [GetCallbackHandler, hc, hd, ne_eq, not_true_eq_false, if_false]

theorem callback_no_cookie {Cfg Token : Type} (f : Factory Cfg) (w : World Cfg Token)
    (r : Request) (hc : r.Cookie (lit "state") = none) :
    GetCallbackHandler f w r = [.nilDereference] := by
  simp only [GetCallbackHandler, hc]

theorem decodeState_eq_some (s : GoString) (h : 3 ≤ (Split s).length) :
    decodeState s = some { Name := (Split s).getD 0 [], Platform := (Split s).getD 1 [] } := by
  unfold decodeState
  rw [if_neg (by omega)]

theorem decodeState_eq_none (s : GoString) (h : (Split s).length < 3) :
    decodeState s = none := by
  unfold decodeState
  rw [if_pos h]


/-! ## The claims -/

/-- C1 (round trip of the state token): for a name and a platform without `_`
and any 16 bytes `b` the random source returns, `generateStateAndAddCookie`
returns a token, and the callback's decoding of that token (split on `_`,
first and second segment) succeeds with exactly that name and platform. -/
theorem state_round_trip {Cfg Token : Type} (w : World Cfg Token)
    (name platform : GoString) (b : Bytes 16)
    (hn : sep ∉ name) (hp : sep ∉ platform) (hr : w.randRead 16 = .ok b) :
    ∃ state, (generateStateAndAddCookie w name platform).2 = .ok state ∧
      decodeState state = some { Name := name, Platform := platform } := by
  refine ⟨SprintfStateFmt name platform (EncodeToString b.val), ?_, ?_⟩
  · rw [generate_ok w name platform b hr]
  · exact decodeState_SprintfStateFmt name platform _ hn hp

theorem state_round_trip_witness :
    (sep ∉ lit "github" ∧ sep ∉ lit "oauth" ∧
      (sampleWorld sampleBytes).randRead 16 = .ok sampleBytes) ∧
    ∃ state, (generateStateAndAddCookie (sampleWorld sampleBytes)
        (lit "github") (lit "oauth")).2 = .ok state ∧
      decodeState state = some { Name := lit "github", Platform := lit "oauth" } :=
  ⟨⟨by decide, by decide, rfl⟩,
   state_round_trip (sampleWorld sampleBytes) (lit "github") (lit "oauth") sampleBytes
     (by decide) (by decide) rfl⟩

/-- C2 (CSRF check): when the request has a `state` cookie of value `S1` and
its `state` parameter differs from `S1` in any way, the callback handler only
writes `states are different` and never calls the exchange. -/
theorem callback_state_mismatch {Cfg Token : Type} (f : Factory Cfg) (w : World Cfg Token)
    (r : Request) (S1 : GoString)
    (hc : r.Cookie (lit "state") = some S1) (hne : S1 ≠ r.FormValue (lit "state")) :
    GetCallbackHandler f w r = [.Fprintf (lit "states are different")] ∧
      ∀ e ∈ GetCallbackHandler f w r, e.isExchange = false := by
  have h : GetCallbackHandler f w r = [.Fprintf (lit "states are different")] := by
    simp only [GetCallbackHandler, hc, ne_eq]
    rw [if_pos (fun e => hne e.symm)]
  refine ⟨h, ?_⟩
  intro e he
  rw [h, List.mem_singleton] at he
  subst he
  rfl

theorem callback_state_mismatch_witness :
    (({ Cookies := [(lit "state", lit "github_oauth_abc")],
        Form := [(lit "state", lit "Github_oauth_abc"), (lit "code", lit "abc123")] } :
        Request).Cookie (lit "state") = some (lit "github_oauth_abc") ∧
      lit "github_oauth_abc" ≠
        ({ Cookies := [(lit "state", lit "github_oauth_abc")],
           Form := [(lit "state", lit "Github_oauth_abc"), (lit "code", lit "abc123")] } :
          Request).FormValue (lit "state")) ∧
    (GetCallbackHandler sampleFactory (sampleWorld sampleBytes)
        { Cookies := [(lit "state", lit "github_oauth_abc")],
          Form := [(lit "state", lit "Github_oauth_abc"), (lit "code", lit "abc123")] } =
        [.Fprintf (lit "states are different")] ∧
      ∀ e ∈ GetCallbackHandler sampleFactory (sampleWorld sampleBytes)
        { Cookies := [(lit "state", lit "github_oauth_abc")],
          Form := [(lit "state", lit "Github_oauth_abc"), (lit "code", lit "abc123")] },
        e.isExchange = false) :=
  ⟨⟨by decide, by decide⟩,
   callback_state_mismatch sampleFactory (sampleWorld sampleBytes) _ (lit "github_oauth_abc")
     (by decide) (by decide)⟩

/-- C3 (missing cookie), the code at the failing input: on a callback request
without a `state` cookie the handler dereferences the nil cookie and panics;
it writes no diagnostic at all. -/
theorem callback_no_cookie_panics :
    GetCallbackHandler sampleFactory (sampleWorld sampleBytes) requestNoCookie =
      [.nilDereference] ∧
    ∀ text, Effect.Fprintf text ∉
      GetCallbackHandler sampleFactory (sampleWorld sampleBytes) requestNoCookie := by
  have h : GetCallbackHandler sampleFactory (sampleWorld sampleBytes) requestNoCookie =
      [.nilDereference] := by decide
  refine ⟨h, ?_⟩
  intro text
  rw [h]
  simp

/-- C4 (decoding of the state): for a request that passed the cookie check,
the handler answers `invalid oauth2State` exactly when splitting the state on
`_` gives fewer than 3 segments; otherwise the decoded name and platform are
the first and second segment, and the handler's behaviour does not depend on
the further segments. -/
theorem callback_decode {Cfg Token : Type} (f : Factory Cfg) (w : World Cfg Token)
    (r : Request) (hc : r.Cookie (lit "state") = some (r.FormValue (lit "state"))) :
    (GetCallbackHandler f w r = [.Fprintf (lit "invalid oauth2State")] ↔
      (Split (r.FormValue (lit "state"))).length < 3) ∧
    (3 ≤ (Split (r.FormValue (lit "state"))).length →
      ∃ name platform rest,
        Split (r.FormValue (lit "state")) = name :: platform :: rest ∧
        decodeState (r.FormValue (lit "state")) =
          some { Name := name, Platform := platform } ∧
        ∀ r' : Request, r'.Cookie (lit "state") = some (r'.FormValue (lit "state")) →
          r'.FormValue (lit "code") = r.FormValue (lit "code") →
          ∀ rest', rest' ≠ [] →
            Split (r'.FormValue (lit "state")) = name :: platform :: rest' →
            GetCallbackHandler f w r' = GetCallbackHandler f w r) := by
  constructor
  · constructor
    · intro h
      by_contra hlen
      have hd := decodeState_eq_some _ (Nat.le_of_not_lt hlen)
      rw [callback_of_decode f w r _ hc hd] at h
      cases hs : f.settings _ with
      | none =>
        rw [hs] at h
        simp only [List.cons.injEq, Effect.Fprintf.injEq, and_true,
          List.append_assoc] at h
        exact missing_ne_invalid _ h
      | some cfg =>
        rw [hs] at h
        cases he : w.Exchange cfg (r.FormValue (lit "code")) with
        | error e => simp [he] at h
        | ok t =>
          cases hp : w.ParseFiles with
          | none => simp [he, hp] at h
          | some e => simp [he, hp] at h
    · intro hlen
      simp only [GetCallbackHandler, hc, ne_eq, not_true_eq_false, if_false,
        decodeState_eq_none _ hlen]
  · intro hlen
    rcases hs : Split (r.FormValue (lit "state")) with _ | ⟨name, _ | ⟨platform, rest⟩⟩
    · rw [hs] at hlen; simp at hlen
    · rw [hs] at hlen; simp at hlen
    · have hd : decodeState (r.FormValue (lit "state")) =
          some { Name := name, Platform := platform } := by
        rw [decodeState_eq_some _ hlen, hs]; rfl
      refine ⟨name, platform, rest, rfl, hd, ?_⟩
      intro r' hc' hcode rest' hne hs'
      have hlen' : 3 ≤ (Split (r'.FormValue (lit "state"))).length := by
        rw [hs']
        have := List.length_pos.mpr hne
        simp only [List.length_cons]
        omega
      have hd' : decodeState (r'.FormValue (lit "state")) =
          some { Name := name, Platform := platform } := by
        rw [decodeState_eq_some _ hlen', hs']; rfl
      rw [callback_of_decode f w r' _ hc' hd', callback_of_decode f w r _ hc hd, hcode]

theorem callback_decode_witness :
    (requestWithState (lit "github_oauth_abc")).Cookie (lit "state") =
      some ((requestWithState (lit "github_oauth_abc")).FormValue (lit "state")) ∧
    ((GetCallbackHandler sampleFactory (sampleWorld sampleBytes)
        (requestWithState (lit "github_oauth_abc")) =
          [.Fprintf (lit "invalid oauth2State")] ↔
      (Split ((requestWithState (lit "github_oauth_abc")).FormValue (lit "state"))).length
        < 3) ∧
    (3 ≤ (Split ((requestWithState (lit "github_oauth_abc")).FormValue
        (lit "state"))).length →
      ∃ name platform rest,
        Split ((requestWithState (lit "github_oauth_abc")).FormValue (lit "state")) =
          name :: platform :: rest ∧
        decodeState ((requestWithState (lit "github_oauth_abc")).FormValue (lit "state")) =
          some { Name := name, Platform := platform } ∧
        ∀ r' : Request, r'.Cookie (lit "state") = some (r'.FormValue (lit "state")) →
          r'.FormValue (lit "code") =
            (requestWithState (lit "github_oauth_abc")).FormValue (lit "code") →
          ∀ rest', rest' ≠ [] →
            Split (r'.FormValue (lit "state")) = name :: platform :: rest' →
            GetCallbackHandler sampleFactory (sampleWorld sampleBytes) r' =
              GetCallbackHandler sampleFactory (sampleWorld sampleBytes)
                (requestWithState (lit "github_oauth_abc")))) :=
  ⟨by decide,
   callback_decode sampleFactory (sampleWorld sampleBytes)
     (requestWithState (lit "github_oauth_abc")) (by decide)⟩


/-- C5 as stated fails: with the provider `git;hub`/`oauth` registered and a
succeeding random source, the login handler redirects with the state
`git;hub_oauth_...`, while the `state` cookie put on the same response has
the value `github_oauth_...` (`net/http` drops the `;`); so no single state
is both the cookie's value and the state of the redirect URL. -/
theorem login_cookie_differs_from_state :
    (semicolonFactory.settings
        { Name := (loginRequest (lit "git;hub") (lit "oauth")).FormValue (lit "name"),
          Platform := (loginRequest (lit "git;hub") (lit "oauth")).FormValue
            (lit "platform") } = some 7 ∧
      (sampleWorld sampleBytes).randRead 16 = .ok sampleBytes) ∧
    GetLoginHandler semicolonFactory (sampleWorld sampleBytes)
        (loginRequest (lit "git;hub") (lit "oauth")) =
      [.AddSetCookie { Name := lit "state",
                       Value := lit "github_oauth_AAECAwQFBgcICQoLDA0ODw==",
                       Expires := some 1200 },
       .Printf (lit "Auth code url: https://provider/authorize?state=" ++
         lit "git;hub_oauth_AAECAwQFBgcICQoLDA0ODw==" ++ lit "\n"),
       .Redirect (lit "https://provider/authorize?state=" ++
         lit "git;hub_oauth_AAECAwQFBgcICQoLDA0ODw==") 307] ∧
    ¬ ∃ state expires,
      GetLoginHandler semicolonFactory (sampleWorld sampleBytes)
          (loginRequest (lit "git;hub") (lit "oauth")) =
        [.AddSetCookie { Name := lit "state", Value := state, Expires := expires },
         .Printf (lit "Auth code url: " ++
           (sampleWorld sampleBytes).AuthCodeURL 7 state
             [AuthCodeOption.ApprovalForce, AuthCodeOption.AccessTypeOffline] ++ lit "\n"),
         .Redirect
           ((sampleWorld sampleBytes).AuthCodeURL 7 state
             [AuthCodeOption.ApprovalForce, AuthCodeOption.AccessTypeOffline]) 307] := by
  have hrun : GetLoginHandler semicolonFactory (sampleWorld sampleBytes)
        (loginRequest (lit "git;hub") (lit "oauth")) =
      [.AddSetCookie { Name := lit "state",
                       Value := lit "github_oauth_AAECAwQFBgcICQoLDA0ODw==",
                       Expires := some 1200 },
       .Printf (lit "Auth code url: https://provider/authorize?state=" ++
         lit "git;hub_oauth_AAECAwQFBgcICQoLDA0ODw==" ++ lit "\n"),
       .Redirect (lit "https://provider/authorize?state=" ++
         lit "git;hub_oauth_AAECAwQFBgcICQoLDA0ODw==") 307] := by decide
  refine ⟨⟨by decide, rfl⟩, hrun, ?_⟩
  rintro ⟨state, expires, h⟩
  rw [hrun] at h
  simp only [List.cons.injEq, Effect.AddSetCookie.injEq, SetCookieHeader.mk.injEq,
    Effect.Redirect.injEq, true_and, and_true] at h
  obtain ⟨⟨hv, _⟩, _, hu⟩ := h
  subst hv
  exact absurd hu (by decide)

/-- C5, amended (login binds the redirect to the cookie): when the request's
name and platform are registered with config `cfg`, hold only bytes that
`net/http` accepts in a cookie value, and the random source returns `b`, the
login handler puts the `state` cookie on the response, logs the URL and
redirects with status 307 to `cfg.AuthCodeURL(state, ...)`; the value of the
cookie is that very `state`, wrapped in double quotes when it holds a space
or a comma, and the bare `state` when name and platform hold neither. -/
theorem login_redirect_binds_cookie {Cfg Token : Type} (f : Factory Cfg)
    (w : World Cfg Token) (r : Request) (cfg : Cfg) (b : Bytes 16)
    (hreg : f.settings { Name := r.FormValue (lit "name"),
                         Platform := r.FormValue (lit "platform") } = some cfg)
    (hr : w.randRead 16 = .ok b)
    (hvn : ∀ c ∈ r.FormValue (lit "name"), validCookieValueByte c = true)
    (hvp : ∀ c ∈ r.FormValue (lit "platform"), validCookieValueByte c = true) :
    ∃ state value expires,
      state = SprintfStateFmt (r.FormValue (lit "name")) (r.FormValue (lit "platform"))
        (EncodeToString b.val) ∧
      (value = state ∨ value = dquote :: (state ++ [dquote])) ∧
      (32 ∉ r.FormValue (lit "name") → 44 ∉ r.FormValue (lit "name") →
        32 ∉ r.FormValue (lit "platform") → 44 ∉ r.FormValue (lit "platform") →
        value = state) ∧
      GetLoginHandler f w r =
        [.AddSetCookie { Name := lit "state", Value := value, Expires := expires },
         .Printf (lit "Auth code url: " ++
           w.AuthCodeURL cfg state
             [AuthCodeOption.ApprovalForce, AuthCodeOption.AccessTypeOffline] ++ lit "\n"),
         .Redirect
           (w.AuthCodeURL cfg state
             [AuthCodeOption.ApprovalForce, AuthCodeOption.AccessTypeOffline]) 307] := by
  refine ⟨_,
    sanitizeCookieValue
      (SprintfStateFmt (r.FormValue (lit "name")) (r.FormValue (lit "platform"))
        (EncodeToString b.val)),
    (if validCookieExpires w (w.now + 20 * Minute) then
        some ((w.now + 20 * Minute) / 1000000000)
      else none),
    rfl, ?_, ?_, ?_⟩
  · rw [sanitize_token _ _ _ hvn hvp]
    split
    · exact Or.inr rfl
    · exact Or.inl rfl
  · intro h1 h2 h3 h4
    rw [sanitize_token _ _ _ hvn hvp,
      SprintfStateFmt_plain _ _ _ (plain_of_not_mem _ h1 h2) (plain_of_not_mem _ h3 h4)
        (EncodeToString_plain b.val)]
    rfl
  · simp only [GetLoginHandler, hreg, generate_ok w _ _ b hr, StatusTemporaryRedirect]
    rfl

theorem login_redirect_binds_cookie_witness :
    (sampleFactory.settings
        { Name := (loginRequest (lit "github") (lit "oauth")).FormValue (lit "name"),
          Platform := (loginRequest (lit "github") (lit "oauth")).FormValue (lit "platform") }
        = some 7 ∧
      (sampleWorld sampleBytes).randRead 16 = .ok sampleBytes ∧
      (∀ c ∈ (loginRequest (lit "github") (lit "oauth")).FormValue (lit "name"),
        validCookieValueByte c = true) ∧
      (∀ c ∈ (loginRequest (lit "github") (lit "oauth")).FormValue (lit "platform"),
        validCookieValueByte c = true)) ∧
    ∃ state value expires,
      state = SprintfStateFmt
        ((loginRequest (lit "github") (lit "oauth")).FormValue (lit "name"))
        ((loginRequest (lit "github") (lit "oauth")).FormValue (lit "platform"))
        (EncodeToString sampleBytes.val) ∧
      (value = state ∨ value = dquote :: (state ++ [dquote])) ∧
      (32 ∉ (loginRequest (lit "github") (lit "oauth")).FormValue (lit "name") →
        44 ∉ (loginRequest (lit "github") (lit "oauth")).FormValue (lit "name") →
        32 ∉ (loginRequest (lit "github") (lit "oauth")).FormValue (lit "platform") →
        44 ∉ (loginRequest (lit "github") (lit "oauth")).FormValue (lit "platform") →
        value = state) ∧
      GetLoginHandler sampleFactory (sampleWorld sampleBytes)
          (loginRequest (lit "github") (lit "oauth")) =
        [.AddSetCookie { Name := lit "state", Value := value, Expires := expires },
         .Printf (lit "Auth code url: " ++
           (sampleWorld sampleBytes).AuthCodeURL 7 state
             [AuthCodeOption.ApprovalForce, AuthCodeOption.AccessTypeOffline] ++ lit "\n"),
         .Redirect
           ((sampleWorld sampleBytes).AuthCodeURL 7 state
             [AuthCodeOption.ApprovalForce, AuthCodeOption.AccessTypeOffline]) 307] :=
  ⟨⟨by decide, rfl, by decide, by decide⟩,
   login_redirect_binds_cookie sampleFactory (sampleWorld sampleBytes)
     (loginRequest (lit "github") (lit "oauth")) 7 sampleBytes (by decide) rfl
     (by decide) (by decide)⟩

/-- C6 (unknown provider on login): when the request's name and platform are
not a key of the registry, the login handler only writes
`Missing config for <name>, platform <platform>`, sets no cookie and issues no
redirect. -/
theorem login_unknown_provider {Cfg Token : Type} (f : Factory Cfg) (w : World Cfg Token)
    (r : Request)
    (hreg : f.settings { Name := r.FormValue (lit "name"),
                         Platform := r.FormValue (lit "platform") } = none) :
    GetLoginHandler f w r =
      [.Fprintf (lit "Missing config for " ++ r.FormValue (lit "name") ++
        lit ", platform " ++ r.FormValue (lit "platform") ++ lit "\n")] ∧
    ∀ e ∈ GetLoginHandler f w r, e.isSetCookie = false ∧ e.isRedirect = false := by
  have h : GetLoginHandler f w r =
      [.Fprintf (lit "Missing config for " ++ r.FormValue (lit "name") ++
        lit ", platform " ++ r.FormValue (lit "platform") ++ lit "\n")] := by
    simp only [GetLoginHandler, hreg]
  refine ⟨h, ?_⟩
  intro e he
  rw [h, List.mem_singleton] at he
  subst he
  exact ⟨rfl, rfl⟩

theorem login_unknown_provider_witness :
    sampleFactory.settings
        { Name := (loginRequest (lit "gitlab") (lit "oauth")).FormValue (lit "name"),
          Platform := (loginRequest (lit "gitlab") (lit "oauth")).FormValue (lit "platform") }
        = none ∧
    (GetLoginHandler sampleFactory (sampleWorld sampleBytes)
        (loginRequest (lit "gitlab") (lit "oauth")) =
      [.Fprintf (lit "Missing config for " ++
        (loginRequest (lit "gitlab") (lit "oauth")).FormValue (lit "name") ++
        lit ", platform " ++
        (loginRequest (lit "gitlab") (lit "oauth")).FormValue (lit "platform") ++ lit "\n")] ∧
    ∀ e ∈ GetLoginHandler sampleFactory (sampleWorld sampleBytes)
        (loginRequest (lit "gitlab") (lit "oauth")),
      e.isSetCookie = false ∧ e.isRedirect = false) :=
  ⟨by decide,
   login_unknown_provider sampleFactory (sampleWorld sampleBytes)
     (loginRequest (lit "gitlab") (lit "oauth")) (by decide)⟩

/-- C7 (successful callback): when the `state` parameter equals the `state`
cookie, splits into at least 3 segments and its first two segments are a
registered identity with config `cfg`, the handler calls the exchange exactly
once, with `cfg` and the request's `code`; and when the exchange returns the
token `t`, the `TokenData` the handler builds and hands to the template is the
decoded identity together with `t`. -/
theorem callback_success {Cfg Token : Type} (f : Factory Cfg) (w : World Cfg Token)
    (r : Request) (cfg : Cfg)
    (hc : r.Cookie (lit "state") = some (r.FormValue (lit "state")))
    (hlen : 3 ≤ (Split (r.FormValue (lit "state"))).length)
    (hreg : f.settings { Name := (Split (r.FormValue (lit "state"))).getD 0 [],
                         Platform := (Split (r.FormValue (lit "state"))).getD 1 [] }
              = some cfg) :
    (GetCallbackHandler f w r).filter Effect.isExchange =
      [.Exchange cfg (r.FormValue (lit "code"))] ∧
    ∀ t, w.Exchange cfg (r.FormValue (lit "code")) = .ok t →
      (∀ data, Effect.Execute data ∈ GetCallbackHandler f w r →
        data = { PlatformBase :=
                   { Name := (Split (r.FormValue (lit "state"))).getD 0 [],
                     Platform := (Split (r.FormValue (lit "state"))).getD 1 [] },
                 Token := t }) ∧
      (w.ParseFiles = none →
        GetCallbackHandler f w r =
          [.Exchange cfg (r.FormValue (lit "code")),
           .Execute { PlatformBase :=
                        { Name := (Split (r.FormValue (lit "state"))).getD 0 [],
                          Platform := (Split (r.FormValue (lit "state"))).getD 1 [] },
                      Token := t }]) := by
  have hd := decodeState_eq_some _ hlen
  have hcb := callback_of_decode f w r _ hc hd
  rw [hreg] at hcb
  simp only at hcb
  constructor
  · rw [hcb]
    cases he : w.Exchange cfg (r.FormValue (lit "code")) with
    | error e => simp [Effect.isExchange]
    | ok t =>
      cases hp : w.ParseFiles with
      | none => simp [Effect.isExchange]
      | some e => simp [Effect.isExchange]
  · intro t ht
    rw [ht] at hcb
    simp only at hcb
    constructor
    · intro data hmem
      rw [hcb] at hmem
      cases hp : w.ParseFiles with
      | none => rw [hp] at hmem; simpa using hmem
      | some e => rw [hp] at hmem; simp at hmem
    · intro hp
      rw [hcb, hp]

theorem callback_success_witness :
    ((requestWithState (lit "github_oauth_abc")).Cookie (lit "state") =
        some ((requestWithState (lit "github_oauth_abc")).FormValue (lit "state")) ∧
      3 ≤ (Split ((requestWithState (lit "github_oauth_abc")).FormValue
        (lit "state"))).length ∧
      sampleFactory.settings
        { Name := (Split ((requestWithState (lit "github_oauth_abc")).FormValue
            (lit "state"))).getD 0 [],
          Platform := (Split ((requestWithState (lit "github_oauth_abc")).FormValue
            (lit "state"))).getD 1 [] } = some 7) ∧
    (GetCallbackHandler sampleFactory (sampleWorld sampleBytes)
        (requestWithState (lit "github_oauth_abc"))).filter Effect.isExchange =
      [.Exchange 7 (lit "abc123")] ∧
    GetCallbackHandler sampleFactory (sampleWorld sampleBytes)
        (requestWithState (lit "github_oauth_abc")) =
      [.Exchange 7 (lit "abc123"),
       .Execute { PlatformBase := { Name := lit "github", Platform := lit "oauth" },
                  Token := lit "xyz" }] :=
  ⟨⟨by decide, by decide, by decide⟩,
   (callback_success sampleFactory (sampleWorld sampleBytes)
     (requestWithState (lit "github_oauth_abc")) 7 (by decide) (by decide) (by decide)).1,
   ((callback_success sampleFactory (sampleWorld sampleBytes)
     (requestWithState (lit "github_oauth_abc")) 7 (by decide) (by decide) (by decide)).2
       (lit "xyz") rfl).2 rfl⟩


/-- C8 as stated fails on the cookie: for the name `git;hub` the function
returns the token `git;hub_oauth_...` while the `state` cookie put on the
response has the value `github_oauth_...`, so the cookie's value is not the
token; with the clock at 1000 ns the `Expires` attribute is second 1200, not
the instant of issuance plus 20 minutes; and with the clock in the year 1600
the cookie has no `Expires` attribute at all. -/
theorem cookie_differs_from_token :
    (sampleWorld sampleBytes).randRead 16 = .ok sampleBytes ∧
    generateStateAndAddCookie (sampleWorld sampleBytes) (lit "git;hub") (lit "oauth") =
      ([.AddSetCookie { Name := lit "state",
                        Value := lit "github_oauth_AAECAwQFBgcICQoLDA0ODw==",
                        Expires := some 1200 }],
       .ok (lit "git;hub_oauth_AAECAwQFBgcICQoLDA0ODw==")) ∧
    (¬ ∃ token expires,
      generateStateAndAddCookie (sampleWorld sampleBytes) (lit "git;hub") (lit "oauth") =
        ([.AddSetCookie { Name := lit "state", Value := token, Expires := expires }],
         .ok token)) ∧
    (1200 : Int) * 1000000000 ≠ (sampleWorld sampleBytes).now + 20 * Minute ∧
    (generateStateAndAddCookie (ancientWorld sampleBytes) (lit "github") (lit "oauth")).1 =
      [.AddSetCookie { Name := lit "state",
                       Value := lit "github_oauth_AAECAwQFBgcICQoLDA0ODw==",
                       Expires := none }] := by
  have hrun : generateStateAndAddCookie (sampleWorld sampleBytes) (lit "git;hub")
      (lit "oauth") =
      ([.AddSetCookie { Name := lit "state",
                        Value := lit "github_oauth_AAECAwQFBgcICQoLDA0ODw==",
                        Expires := some 1200 }],
       .ok (lit "git;hub_oauth_AAECAwQFBgcICQoLDA0ODw==")) := by
    rw [generate_ok _ _ _ sampleBytes rfl]
    exact congr (congrArg Prod.mk (by decide)) (congrArg Except.ok (by decide))
  refine ⟨rfl, hrun, ?_, by decide, ?_⟩
  · rintro ⟨token, expires, h⟩
    rw [hrun] at h
    simp only [Prod.mk.injEq, List.cons.injEq, Effect.AddSetCookie.injEq,
      SetCookieHeader.mk.injEq, Except.ok.injEq, true_and, and_true] at h
    obtain ⟨⟨hv, _⟩, ht⟩ := h
    rw [← hv] at ht
    exact absurd ht (by decide)
  · rw [generate_ok _ _ _ sampleBytes rfl]
    decide

/-- C8, amended (shape of the minted token and its cookie): when the random
source returns the 16 bytes `b`, `generateStateAndAddCookie` returns
`name ++ "_" ++ platform ++ "_" ++ base64url(b)`, whose random segment has 24
characters, all of the URL-safe alphabet or the padding `=` (never `+` or
`/`); and when name and platform hold only bytes that `net/http` accepts in a
cookie value, it puts exactly one cookie on the response, named `state`,
whose value is that token (wrapped in double quotes when it holds a space or
a comma, the bare token when name and platform hold neither) and whose
`Expires` attribute is the second of issuance plus 20 minutes (left out when
that instant lies before the year 1601). When the random source fails, the
function returns the error and sets no cookie. -/
theorem generate_shape {Cfg Token : Type} (w : World Cfg Token) (name platform : GoString) :
    (∀ b : Bytes 16, w.randRead 16 = .ok b →
      (generateStateAndAddCookie w name platform).2 =
        .ok (name ++ lit "_" ++ platform ++ lit "_" ++ EncodeToString b.val) ∧
      (EncodeToString b.val).length = 24 ∧
      (∀ c ∈ EncodeToString b.val,
        (c ∈ encodeURL ∨ c = padChar) ∧ [c] ≠ lit "+" ∧ [c] ≠ lit "/") ∧
      ((∀ c ∈ name, validCookieValueByte c = true) →
        (∀ c ∈ platform, validCookieValueByte c = true) →
        ∃ value,
          (value = name ++ lit "_" ++ platform ++ lit "_" ++ EncodeToString b.val ∨
            value = dquote ::
              (name ++ lit "_" ++ platform ++ lit "_" ++ EncodeToString b.val ++ [dquote])) ∧
          (32 ∉ name → 44 ∉ name → 32 ∉ platform → 44 ∉ platform →
            value = name ++ lit "_" ++ platform ++ lit "_" ++ EncodeToString b.val) ∧
          (generateStateAndAddCookie w name platform).1 =
            [.AddSetCookie
              { Name := lit "state",
                Value := value,
                Expires :=
                  if validCookieExpires w (w.now + 20 * 60 * 1000000000) then
                    some (w.now / 1000000000 + 20 * 60)
                  else none }])) ∧
    (∀ err, w.randRead 16 = .error err →
      generateStateAndAddCookie w name platform = ([], .error err)) := by
  constructor
  · intro b hr
    refine ⟨?_, ?_, ?_, ?_⟩
    · rw [generate_ok w name platform b hr]
      rfl
    · rw [EncodeToString_length 16 b.val b.property]
    · intro c hc
      have h := EncodeToString_alphabet 16 b.val b.property c hc
      refine ⟨h, ?_, ?_⟩
      · rintro heq
        have hc43 : c = 43 := List.head_eq_of_cons_eq heq
        subst hc43
        revert h
        decide
      · rintro heq
        have hc47 : c = 47 := List.head_eq_of_cons_eq heq
        subst hc47
        revert h
        decide
    · intro hvn hvp
      have hst := sanitize_token name platform b.val hvn hvp
      simp only [SprintfStateFmt] at hst
      refine ⟨sanitizeCookieValue
        (name ++ lit "_" ++ platform ++ lit "_" ++ EncodeToString b.val), ?_, ?_, ?_⟩
      · rw [hst]
        split
        · exact Or.inr rfl
        · exact Or.inl rfl
      · intro h1 h2 h3 h4
        have hpl := SprintfStateFmt_plain name platform (EncodeToString b.val)
          (plain_of_not_mem _ h1 h2) (plain_of_not_mem _ h3 h4) (EncodeToString_plain b.val)
        simp only [SprintfStateFmt] at hpl
        rw [hst, hpl]
        rfl
      · rw [generate_ok w name platform b hr]
        have hdiv : (w.now + 20 * Minute) / 1000000000 = w.now / 1000000000 + 20 * 60 := by
          simp only [Minute]
          omega
        have hmin : w.now + 20 * Minute = w.now + 20 * 60 * 1000000000 := by
          simp only [Minute]
          ring
        simp only [SprintfStateFmt, hdiv]
        rw [hmin]
  · intro err hr
    exact generate_error w name platform err hr

theorem generate_shape_witness :
    ((sampleWorld sampleBytes).randRead 16 = .ok sampleBytes ∧
      (∀ c ∈ lit "github", validCookieValueByte c = true) ∧
      (∀ c ∈ lit "oauth", validCookieValueByte c = true) ∧
      32 ∉ lit "github" ∧ 44 ∉ lit "github" ∧ 32 ∉ lit "oauth" ∧ 44 ∉ lit "oauth" ∧
      failingWorld.randRead 16 = .error (lit "entropy unavailable")) ∧
    ((generateStateAndAddCookie (sampleWorld sampleBytes) (lit "github") (lit "oauth")).2 =
        .ok (lit "github" ++ lit "_" ++ lit "oauth" ++ lit "_" ++
          EncodeToString sampleBytes.val) ∧
      (EncodeToString sampleBytes.val).length = 24 ∧
      (∀ c ∈ EncodeToString sampleBytes.val,
        (c ∈ encodeURL ∨ c = padChar) ∧ [c] ≠ lit "+" ∧ [c] ≠ lit "/") ∧
      ∃ value,
        (value = lit "github" ++ lit "_" ++ lit "oauth" ++ lit "_" ++
            EncodeToString sampleBytes.val ∨
          value = dquote ::
            (lit "github" ++ lit "_" ++ lit "oauth" ++ lit "_" ++
              EncodeToString sampleBytes.val ++ [dquote])) ∧
        (32 ∉ lit "github" → 44 ∉ lit "github" → 32 ∉ lit "oauth" → 44 ∉ lit "oauth" →
          value = lit "github" ++ lit "_" ++ lit "oauth" ++ lit "_" ++
            EncodeToString sampleBytes.val) ∧
        (generateStateAndAddCookie (sampleWorld sampleBytes) (lit "github")
            (lit "oauth")).1 =
          [.AddSetCookie
            { Name := lit "state",
              Value := value,
              Expires :=
                if validCookieExpires (sampleWorld sampleBytes)
                    ((sampleWorld sampleBytes).now + 20 * 60 * 1000000000) then
                  some ((sampleWorld sampleBytes).now / 1000000000 + 20 * 60)
                else none }]) ∧
    generateStateAndAddCookie failingWorld (lit "github") (lit "oauth") =
      (([] : List (Effect Nat GoString)), .error (lit "entropy unavailable")) :=
  ⟨⟨rfl, by decide, by decide, by decide, by decide, by decide, by decide, rfl⟩,
   ⟨((generate_shape (sampleWorld sampleBytes) (lit "github") (lit "oauth")).1
       sampleBytes rfl).1,
    ((generate_shape (sampleWorld sampleBytes) (lit "github") (lit "oauth")).1
       sampleBytes rfl).2.1,
    ((generate_shape (sampleWorld sampleBytes) (lit "github") (lit "oauth")).1
       sampleBytes rfl).2.2.1,
    ((generate_shape (sampleWorld sampleBytes) (lit "github") (lit "oauth")).1
       sampleBytes rfl).2.2.2 (by decide) (by decide)⟩,
   (generate_shape failingWorld (lit "github") (lit "oauth")).2
     (lit "entropy unavailable") rfl⟩

/-- C9 (separator fragility): when the name or the platform contains `_`, for
any 16 bytes the random source returns, the callback's decoding of the minted
token succeeds (no malformed-state error) and yields a name and platform that
differ from the ones the token was minted for. -/
theorem separator_fragility {Cfg Token : Type} (w : World Cfg Token)
    (name platform : GoString) (b : Bytes 16)
    (hsep : sep ∈ name ∨ sep ∈ platform) (hr : w.randRead 16 = .ok b) :
    ∃ state pb, (generateStateAndAddCookie w name platform).2 = .ok state ∧
      decodeState state = some pb ∧ pb ≠ { Name := name, Platform := platform } := by
  have hlen := Split_SprintfStateFmt_length name platform (EncodeToString b.val)
  have hd := decodeState_eq_some _ hlen
  refine ⟨SprintfStateFmt name platform (EncodeToString b.val), _, ?_, hd, ?_⟩
  · rw [generate_ok w name platform b hr]
  · intro heq
    rw [heq] at hd
    have hno := decodeState_not_mem _ _ hd
    rcases hsep with h | h
    · exact hno.1 h
    · exact hno.2 h

theorem separator_fragility_witness :
    ((sep ∈ lit "git_hub" ∨ sep ∈ lit "oauth") ∧
      (sampleWorld sampleBytes).randRead 16 = .ok sampleBytes) ∧
    ∃ state pb,
      (generateStateAndAddCookie (sampleWorld sampleBytes) (lit "git_hub") (lit "oauth")).2 =
        .ok state ∧
      decodeState state = some pb ∧
      pb ≠ { Name := lit "git_hub", Platform := lit "oauth" } :=
  ⟨⟨by decide, rfl⟩,
   separator_fragility (sampleWorld sampleBytes) (lit "git_hub") (lit "oauth") sampleBytes
     (by decide) rfl⟩

/-- C10 (injectivity of token minting): for names and platforms without `_`
and 16-byte values `b1`, `b2`, equal minted tokens come from equal name,
platform and bytes; two mintings that draw different bytes never give the
same token (this part holds for any names and platforms); and without the
restriction there are two distinct identities whose tokens coincide for the
same random bytes. -/
theorem minting_injective {Cfg Token : Type} :
    (∀ (w1 w2 : World Cfg Token) (n1 p1 n2 p2 : GoString) (b1 b2 : Bytes 16),
      sep ∉ n1 → sep ∉ p1 → sep ∉ n2 → sep ∉ p2 →
      w1.randRead 16 = .ok b1 → w2.randRead 16 = .ok b2 →
      (generateStateAndAddCookie w1 n1 p1).2 = (generateStateAndAddCookie w2 n2 p2).2 →
      n1 = n2 ∧ p1 = p2 ∧ b1 = b2) ∧
    (∀ (w1 w2 : World Cfg Token) (n1 p1 n2 p2 : GoString) (b1 b2 : Bytes 16),
      w1.randRead 16 = .ok b1 → w2.randRead 16 = .ok b2 → b1 ≠ b2 →
      (generateStateAndAddCookie w1 n1 p1).2 ≠ (generateStateAndAddCookie w2 n2 p2).2) ∧
    (∃ n1 p1 n2 p2 : GoString,
      (n1 ≠ n2 ∨ p1 ≠ p2) ∧
      ∀ (w : World Cfg Token) (b : Bytes 16), w.randRead 16 = .ok b →
        (generateStateAndAddCookie w n1 p1).2 = (generateStateAndAddCookie w n2 p2).2) := by
  have key : ∀ (w1 w2 : World Cfg Token) (n1 p1 n2 p2 : GoString) (b1 b2 : Bytes 16),
      w1.randRead 16 = .ok b1 → w2.randRead 16 = .ok b2 →
      (generateStateAndAddCookie w1 n1 p1).2 = (generateStateAndAddCookie w2 n2 p2).2 →
      SprintfStateFmt n1 p1 (EncodeToString b1.val) =
        SprintfStateFmt n2 p2 (EncodeToString b2.val) ∧ b1 = b2 := by
    intro w1 w2 n1 p1 n2 p2 b1 b2 h1 h2 heq
    rw [generate_ok w1 n1 p1 b1 h1, generate_ok w2 n2 p2 b2 h2] at heq
    have htok : SprintfStateFmt n1 p1 (EncodeToString b1.val) =
        SprintfStateFmt n2 p2 (EncodeToString b2.val) := by
      simpa using heq
    refine ⟨htok, ?_⟩
    have hl : (EncodeToString b1.val).length = (EncodeToString b2.val).length := by
      rw [EncodeToString_length 16 b1.val b1.property,
        EncodeToString_length 16 b2.val b2.property]
    simp only [SprintfStateFmt] at htok
    have henc := (List.append_inj' htok hl).2
    exact Subtype.ext (EncodeToString_inj 16 b1.val b2.val b1.property b2.property henc)
  refine ⟨?_, ?_, ?_⟩
  · intro w1 w2 n1 p1 n2 p2 b1 b2 hn1 hp1 hn2 hp2 h1 h2 heq
    obtain ⟨htok, hb⟩ := key w1 w2 n1 p1 n2 p2 b1 b2 h1 h2 heq
    have hs := congrArg Split htok
    rw [Split_SprintfStateFmt _ _ _ hn1 hp1, Split_SprintfStateFmt _ _ _ hn2 hp2] at hs
    simp only [List.cons.injEq] at hs
    exact ⟨hs.1, hs.2.1, hb⟩
  · intro w1 w2 n1 p1 n2 p2 b1 b2 h1 h2 hne heq
    exact hne (key w1 w2 n1 p1 n2 p2 b1 b2 h1 h2 heq).2
  · refine ⟨lit "a_b", lit "c", lit "a", lit "b_c", Or.inl (by decide), ?_⟩
    intro w b hr
    rw [generate_ok w _ _ b hr, generate_ok w _ _ b hr]
    have : SprintfStateFmt (lit "a_b") (lit "c") (EncodeToString b.val) =
        SprintfStateFmt (lit "a") (lit "b_c") (EncodeToString b.val) := by
      rw [SprintfStateFmt_eq, SprintfStateFmt_eq]
      rfl
    rw [this]

theorem minting_injective_witness :
    (sep ∉ lit "github" ∧ sep ∉ lit "oauth" ∧
      (sampleWorld sampleBytes).randRead 16 = .ok sampleBytes ∧
      (sampleWorld sampleBytesFF).randRead 16 = .ok sampleBytesFF ∧
      sampleBytes ≠ sampleBytesFF) ∧
    ((generateStateAndAddCookie (sampleWorld sampleBytes) (lit "github") (lit "oauth")).2 =
        (generateStateAndAddCookie (sampleWorld sampleBytes) (lit "github") (lit "oauth")).2 →
      lit "github" = lit "github" ∧ lit "oauth" = lit "oauth" ∧ sampleBytes = sampleBytes) ∧
    (generateStateAndAddCookie (sampleWorld sampleBytes) (lit "github") (lit "oauth")).2 ≠
      (generateStateAndAddCookie (sampleWorld sampleBytesFF) (lit "github") (lit "oauth")).2 :=
  ⟨⟨by decide, by decide, rfl, rfl, by decide⟩,
   minting_injective.1 (sampleWorld sampleBytes) (sampleWorld sampleBytes)
     (lit "github") (lit "oauth") (lit "github") (lit "oauth") sampleBytes sampleBytes
     (by decide) (by decide) (by decide) (by decide) rfl rfl,
   minting_injective.2.1 (sampleWorld sampleBytes) (sampleWorld sampleBytesFF)
     (lit "github") (lit "oauth") (lit "github") (lit "oauth") sampleBytes sampleBytesFF
     rfl rfl (by decide)⟩

end OAuth2TokenApp
